import Mathlib

/-!
Shallow embedding of the tip-calculator frontend
(`src/tip_calculator_frontend/src/App.js`).

JavaScript numbers are modelled as exact rationals (`ℚ`): every quantity the
app derives is obtained from the parsed input values by `+`, `*`, `/`,
`max`, `Math.floor` and `Math.round`, all of which are faithfully mirrored on
`ℚ` (`Math.round x = ⌊x + 1/2⌋` for every finite `x`, which is Mathlib's
`round`).  Input strings are modelled by what `Number()` makes of them: the
empty string, `null`/`undefined`, a string parsing to a finite value `q`, or
a string parsing to `NaN`/`±Infinity`.
-/

/-- Abstraction of a value handed to `coerceNumber` / `Number()`:
the empty string, `null` or `undefined`, a string whose `Number()` value is
the finite number `q`, or a string whose `Number()` value is not finite. -/
inductive JSValue where
  | empty : JSValue
  | nullOrUndef : JSValue
  | numStr : ℚ → JSValue
  | nanStr : JSValue
deriving DecidableEq, Repr

/-- `Number(value)` on a `JSValue`, `none` standing for a non-finite result.
(`Number handles the empty string as `0`; `null`/`undefined` only ever reach
`Number` as `undefined` via the optional-chained `e?.target?.value`, and
`Number(undefined)` is `NaN`.) -/
def jsNumber : JSValue → Option ℚ
  | .empty => some 0
  | .nullOrUndef => none
  | .numStr q => some q
  | .nanStr => none

/-- `coerceNumber` from `App.js`:
empty string / `null` / `undefined` return `0`; otherwise `Number(value)` is
returned when finite and `0` when not. -/
def coerceNumber : JSValue → ℚ
  | .empty => 0
  | .nullOrUndef => 0
  | .numStr q => q
  | .nanStr => 0

/-- `roundToWholeCurrency` from `App.js`: `Math.round` on a finite amount
(the non-finite guard is vacuous over `ℚ`). -/
def roundToWholeCurrency (amount : ℚ) : ℚ :=
  (round amount : ℤ)

/-- `formatCurrency` from `App.js`: `"$" + amount.toFixed(2)` (non-finite is
treated as `0`; `toFixed(2)` rounds to a whole number of cents). -/
def formatCurrency (amount : ℚ) : String :=
  let cents : ℤ := round (amount * 100)
  let sign := if cents < 0 then "-" else ""
  let n := cents.natAbs
  let fracPart := n % 100
  let fracStr := (if fracPart < 10 then "0" else "") ++ toString fracPart
  "$" ++ sign ++ toString (n / 100) ++ "." ++ fracStr

/-- The `ROUNDING_MODES` enum from `App.js`. -/
inductive RoundingMode where
  | none : RoundingMode
  | tip : RoundingMode
  | total : RoundingMode
deriving DecidableEq, Repr

/-- `TIP_PRESETS` from `App.js`. -/
def TIP_PRESETS : List ℚ := [10, 15, 18, 20]

/-- The component state of `App`: the five `useState` values plus the
`lastPresetTipRef` ref. -/
structure AppState where
  billInput : JSValue
  selectedTip : ℚ
  customTipInput : JSValue
  lastPresetTip : ℚ
  peopleInput : JSValue
  roundingMode : RoundingMode
deriving DecidableEq, Repr

/-- The initial state of `App`: empty bill, preset 15 selected, empty custom
tip, last preset ref 15, people `'1'`, no rounding. -/
def initState : AppState :=
  { billInput := .empty
    selectedTip := 15
    customTipInput := .empty
    lastPresetTip := 15
    peopleInput := .numStr 1
    roundingMode := .none }

/-- `billRaw = coerceNumber(billInput)`. -/
def billRaw (s : AppState) : ℚ := coerceNumber s.billInput

/-- `customTipRaw = coerceNumber(customTipInput)`. -/
def customTipRaw (s : AppState) : ℚ := coerceNumber s.customTipInput

/-- `peopleRaw = coerceNumber(peopleInput)`. -/
def peopleRaw (s : AppState) : ℚ := coerceNumber s.peopleInput

/-- `isCustomActive = customTipInput !== ''`. -/
def isCustomActive (s : AppState) : Bool := s.customTipInput ≠ JSValue.empty

/-- `activeTipPercent = isCustomActive ? customTipRaw : selectedTip`. -/
def activeTipPercent (s : AppState) : ℚ :=
  if isCustomActive s then customTipRaw s else s.selectedTip

/-- `billForCalc = Math.max(0, billRaw)`. -/
def billForCalc (s : AppState) : ℚ := max 0 (billRaw s)

/-- `tipPercentForCalc = Math.max(0, activeTipPercent)`. -/
def tipPercentForCalc (s : AppState) : ℚ := max 0 (activeTipPercent s)

/-- `baseTipAmount = billForCalc * (tipPercentForCalc / 100)`. -/
def baseTipAmount (s : AppState) : ℚ :=
  billForCalc s * (tipPercentForCalc s / 100)

/-- `baseTotalAmount = billForCalc + baseTipAmount`. -/
def baseTotalAmount (s : AppState) : ℚ :=
  billForCalc s + baseTipAmount s

/-- `billHasError = billRaw < 0`. -/
def billHasError (s : AppState) : Bool := billRaw s < 0

/-- `tipHasError = activeTipPercent < 0`. -/
def tipHasError (s : AppState) : Bool := activeTipPercent s < 0

/-- `peopleClamped = Math.max(1, Math.floor(peopleRaw || 0))`
(`peopleRaw || 0` is the identity on the numbers `coerceNumber` produces). -/
def peopleClamped (s : AppState) : ℤ := max 1 ⌊peopleRaw s⌋

/-- `peopleHasError = peopleRaw < 1`. -/
def peopleHasError (s : AppState) : Bool := peopleRaw s < 1

/-- The `{ tipAmount, totalAmount }` pair of the rounding `useMemo`:
RoundTip rounds the base tip; RoundTotal rounds the base total and implies
the tip, floored at 0; otherwise the base amounts are used as is. -/
def tipAndTotal (s : AppState) : ℚ × ℚ :=
  match s.roundingMode with
  | .tip =>
      let roundedTip := roundToWholeCurrency (baseTipAmount s)
      (roundedTip, billForCalc s + roundedTip)
  | .total =>
      let roundedTotal := roundToWholeCurrency (baseTotalAmount s)
      let impliedTip := max 0 (roundedTotal - billForCalc s)
      (impliedTip, billForCalc s + impliedTip)
  | .none => (baseTipAmount s, baseTotalAmount s)

/-- `tipAmount`. -/
def tipAmount (s : AppState) : ℚ := (tipAndTotal s).1

/-- `totalAmount`. -/
def totalAmount (s : AppState) : ℚ := (tipAndTotal s).2

/-- `perPersonTip = tipAmount / peopleClamped`. -/
def perPersonTip (s : AppState) : ℚ := tipAmount s / (peopleClamped s : ℚ)

/-- `perPersonTotal = totalAmount / peopleClamped`. -/
def perPersonTotal (s : AppState) : ℚ := totalAmount s / (peopleClamped s : ℚ)

/-- The per-person block of the results panel: rendered only under the
`peopleClamped > 1` conditional, and showing `(perPersonTip, perPersonTotal)`
when rendered. -/
def perPersonResults (s : AppState) : Option (ℚ × ℚ) :=
  if 1 < peopleClamped s then some (perPersonTip s, perPersonTotal s) else none

/-- `onBillChange`: store the raw string. -/
def onBillChange (v : JSValue) (s : AppState) : AppState :=
  { s with billInput := v }

/-- `onSelectPreset`: select the preset, record it in `lastPresetTipRef`, and
clear the custom text. -/
def onSelectPreset (pct : ℚ) (s : AppState) : AppState :=
  { s with selectedTip := pct, lastPresetTip := pct, customTipInput := .empty }

/-- `onCustomTipChange`: store the custom text; when it was cleared, restore
the last selected preset. -/
def onCustomTipChange (v : JSValue) (s : AppState) : AppState :=
  if v = .empty then
    { s with customTipInput := v, selectedTip := s.lastPresetTip }
  else
    { s with customTipInput := v }

/-- `onPeopleChange`: parse the edited text with `Number`; when not finite or
`≤ 0` store `"1"`, else store `String(Math.max(1, Math.floor(n)))`. -/
def onPeopleChange (v : JSValue) (s : AppState) : AppState :=
  match jsNumber v with
  | Option.none => { s with peopleInput := .numStr 1 }
  | some n =>
      if n ≤ 0 then { s with peopleInput := .numStr 1 }
      else { s with peopleInput := .numStr ((max 1 ⌊n⌋ : ℤ) : ℚ) }

/-- `onPeopleBlur`: parse the blur-time text with `Number`; when not finite
or `< 1` store `"1"`, otherwise leave the state unchanged. -/
def onPeopleBlur (v : JSValue) (s : AppState) : AppState :=
  match jsNumber v with
  | Option.none => { s with peopleInput := .numStr 1 }
  | some n =>
      if n < 1 then { s with peopleInput := .numStr 1 } else s

/-- `onRoundingModeChange`: store the selected mode. -/
def onRoundingModeChange (m : RoundingMode) (s : AppState) : AppState :=
  { s with roundingMode := m }

/-- The user events the UI can dispatch to the handlers. -/
inductive Event where
  | billChange : JSValue → Event
  | selectPreset : ℚ → Event
  | customTipChange : JSValue → Event
  | peopleChange : JSValue → Event
  | peopleBlur : JSValue → Event
  | roundingChange : RoundingMode → Event
deriving DecidableEq, Repr

/-- Dispatch one event to its handler. -/
def step (e : Event) (s : AppState) : AppState :=
  match e with
  | .billChange v => onBillChange v s
  | .selectPreset pct => onSelectPreset pct s
  | .customTipChange v => onCustomTipChange v s
  | .peopleChange v => onPeopleChange v s
  | .peopleBlur v => onPeopleBlur v s
  | .roundingChange m => onRoundingModeChange m s

/-- Run a list of events from a state. -/
def run (s : AppState) (tr : List Event) : AppState :=
  tr.foldl (fun acc e => step e acc) s

/-- The percentage of the most recent `selectPreset` event of a trace, `15`
(the initial ref value) when there is none. -/
def lastPresetOf (tr : List Event) : ℚ :=
  tr.foldl (fun acc e => match e with | .selectPreset pct => pct | _ => acc) 15

/-- `pressed` for a preset button: `!isCustomActive && selectedTip === pct`. -/
def presetPressed (s : AppState) (pct : ℚ) : Bool :=
  !isCustomActive s && s.selectedTip = pct

/-! ### Helper lemmas -/

lemma billForCalc_nonneg (s : AppState) : 0 ≤ billForCalc s := le_max_left 0 _

lemma tipPercentForCalc_nonneg (s : AppState) : 0 ≤ tipPercentForCalc s := le_max_left 0 _

lemma baseTipAmount_nonneg (s : AppState) : 0 ≤ baseTipAmount s :=
  mul_nonneg (billForCalc_nonneg s) (div_nonneg (tipPercentForCalc_nonneg s) (by norm_num))

lemma baseTotalAmount_nonneg (s : AppState) : 0 ≤ baseTotalAmount s :=
  add_nonneg (billForCalc_nonneg s) (baseTipAmount_nonneg s)

lemma roundToWholeCurrency_nonneg (q : ℚ) (h : 0 ≤ q) : 0 ≤ roundToWholeCurrency q := by
  have hz : (0 : ℤ) ≤ round q := by
    rw [round_eq]
    exact Int.le_floor.mpr (by push_cast; linarith)
  unfold roundToWholeCurrency
  exact_mod_cast hz

lemma peopleClamped_pos (s : AppState) : 0 < peopleClamped s :=
  lt_of_lt_of_le one_pos (le_max_left 1 _)

lemma billForCalc_of_nonneg {s : AppState} (h : 0 ≤ billRaw s) : billForCalc s = billRaw s :=
  max_eq_right h

lemma tipPercentForCalc_of_nonneg {s : AppState} (h : 0 ≤ activeTipPercent s) :
    tipPercentForCalc s = activeTipPercent s :=
  max_eq_right h

/-! ### Claim theorems -/

/-- C2: for every bill ≥ 0 and tip percent ≥ 0, with RoundingMode = None the
derived tip equals `bill * tipPercent / 100` and the derived total equals
`bill + tip`, exactly (the unrounded base values). -/
theorem C2_noRounding (s : AppState) (hb : 0 ≤ billRaw s)
    (hp : 0 ≤ activeTipPercent s) (hm : s.roundingMode = RoundingMode.none) :
    tipAmount s = billRaw s * (activeTipPercent s / 100) ∧
    totalAmount s = billRaw s + tipAmount s := by
  have hbf := billForCalc_of_nonneg hb
  have hpf := tipPercentForCalc_of_nonneg hp
  constructor
  · simp [tipAmount, tipAndTotal, hm, baseTipAmount, hbf, hpf]
  · simp [tipAmount, totalAmount, tipAndTotal, hm, baseTotalAmount, baseTipAmount, hbf, hpf]

/-- The spec's example state for C2: bill 100, preset 15, no rounding. -/
def c2ExampleState : AppState := { initState with billInput := .numStr 100 }

/-- Witness for C2 at bill 100, preset tip 15, RoundingMode = None. -/
theorem C2_noRounding_witness :
    tipAmount c2ExampleState = billRaw c2ExampleState * (activeTipPercent c2ExampleState / 100) ∧
    totalAmount c2ExampleState = billRaw c2ExampleState + tipAmount c2ExampleState :=
  C2_noRounding c2ExampleState
    (by norm_num [c2ExampleState, billRaw, coerceNumber, initState])
    (by norm_num [c2ExampleState, activeTipPercent, isCustomActive, customTipRaw, coerceNumber,
      initState])
    rfl

/-- C3: for every bill ≥ 0 and tip percent ≥ 0, with RoundingMode = RoundTip
the derived tip is the base tip rounded half-to-nearest whole currency unit
and the derived total is `bill + roundedTip`. -/
theorem C3_roundTip (s : AppState) (hb : 0 ≤ billRaw s)
    (hp : 0 ≤ activeTipPercent s) (hm : s.roundingMode = RoundingMode.tip) :
    tipAmount s = roundToWholeCurrency (billRaw s * (activeTipPercent s / 100)) ∧
    totalAmount s = billRaw s + tipAmount s := by
  have hbf := billForCalc_of_nonneg hb
  have hpf := tipPercentForCalc_of_nonneg hp
  constructor
  · simp [tipAmount, tipAndTotal, hm, baseTipAmount, hbf, hpf]
  · simp [tipAmount, totalAmount, tipAndTotal, hm, baseTipAmount, hbf, hpf]

/-- The spec's example state for C3: bill 33, preset 15, RoundTip. -/
def c3ExampleState : AppState :=
  { initState with billInput := .numStr 33, roundingMode := .tip }

/-- Witness for C3 at bill 33, preset tip 15, RoundingMode = RoundTip. -/
theorem C3_roundTip_witness :
    tipAmount c3ExampleState =
      roundToWholeCurrency (billRaw c3ExampleState * (activeTipPercent c3ExampleState / 100)) ∧
    totalAmount c3ExampleState = billRaw c3ExampleState + tipAmount c3ExampleState :=
  C3_roundTip c3ExampleState
    (by norm_num [c3ExampleState, billRaw, coerceNumber, initState])
    (by norm_num [c3ExampleState, activeTipPercent, isCustomActive, customTipRaw, coerceNumber,
      initState])
    rfl

/-- C7: `coerceNumber` maps the empty string, `null`/`undefined` and
non-numeric text to 0, and finite numeric text to its parsed value with the
sign preserved (a negative entry stays negative, hence detectable). -/
theorem C7_coerceNumber :
    coerceNumber JSValue.empty = 0 ∧ coerceNumber JSValue.nullOrUndef = 0 ∧
    coerceNumber JSValue.nanStr = 0 ∧
    (∀ q : ℚ, coerceNumber (JSValue.numStr q) = q) ∧
    (∀ q : ℚ, q < 0 → coerceNumber (JSValue.numStr q) < 0) := by
  refine ⟨rfl, rfl, rfl, fun q => rfl, fun q hq => ?_⟩
  simpa [coerceNumber] using hq

/-- Witness for C7 at the numeric text `-10`. -/
theorem C7_coerceNumber_witness : coerceNumber (JSValue.numStr (-10)) < 0 :=
  C7_coerceNumber.2.2.2.2 (-10) (by norm_num)

/-- C8: in every state — whatever the three input strings, the selected
preset and the rounding mode are — the derived tip, total, per-person tip
and per-person total are all non-negative. -/
theorem C8_derivedNonneg (s : AppState) :
    0 ≤ tipAmount s ∧ 0 ≤ totalAmount s ∧ 0 ≤ perPersonTip s ∧ 0 ≤ perPersonTotal s := by
  have hpc : (0 : ℚ) ≤ (peopleClamped s : ℚ) := by exact_mod_cast (peopleClamped_pos s).le
  have htip : 0 ≤ tipAmount s := by
    cases hm : s.roundingMode with
    | none => simpa [tipAmount, tipAndTotal, hm] using baseTipAmount_nonneg s
    | tip =>
        simpa [tipAmount, tipAndTotal, hm] using
          roundToWholeCurrency_nonneg _ (baseTipAmount_nonneg s)
    | total => simp [tipAmount, tipAndTotal, hm, le_max_iff]
  have htot : 0 ≤ totalAmount s := by
    cases hm : s.roundingMode with
    | none => simpa [totalAmount, tipAndTotal, hm] using baseTotalAmount_nonneg s
    | tip =>
        simpa [totalAmount, tipAndTotal, hm] using
          add_nonneg (billForCalc_nonneg s)
            (roundToWholeCurrency_nonneg _ (baseTipAmount_nonneg s))
    | total =>
        simpa [totalAmount, tipAndTotal, hm] using
          add_nonneg (billForCalc_nonneg s) (le_max_left 0 _)
  exact ⟨htip, htot, div_nonneg htip hpc, div_nonneg htot hpc⟩

/-- C10: in every rounding mode the derived total is exactly the clamped
bill plus the derived tip; and in RoundTotal mode, when the rounded base
total does not exceed the bill (so the implied tip is floored at 0), the
displayed total is the bill itself, not the rounded base total. -/
theorem C10_totalIsBillPlusTip :
    (∀ s, totalAmount s = billForCalc s + tipAmount s) ∧
    (∀ s, s.roundingMode = RoundingMode.total →
      roundToWholeCurrency (baseTotalAmount s) ≤ billForCalc s →
      totalAmount s = billForCalc s) := by
  constructor
  · intro s
    cases hm : s.roundingMode <;>
      simp [totalAmount, tipAmount, tipAndTotal, hm, baseTotalAmount]
  · intro s hm hle
    simp only [totalAmount, tipAndTotal, hm]
    rw [max_eq_left (by linarith), add_zero]

/-- The state exercising the implied-tip floor for C10: bill 10.4, custom
tip 0, RoundTotal (rounded base total 10 is below the bill). -/
def c10ExampleState : AppState :=
  { initState with
      billInput := .numStr (52 / 5)
      customTipInput := .numStr 0
      roundingMode := .total }

/-- Witness for C10 at bill 10.4, custom tip 0, RoundingMode = RoundTotal. -/
theorem C10_totalIsBillPlusTip_witness : totalAmount c10ExampleState = billForCalc c10ExampleState :=
  C10_totalIsBillPlusTip.2 c10ExampleState rfl (by
    have h1 : baseTotalAmount c10ExampleState = 52 / 5 := by
      simp only [c10ExampleState, initState, baseTotalAmount, baseTipAmount, billForCalc,
        tipPercentForCalc, billRaw, activeTipPercent, isCustomActive, customTipRaw, coerceNumber]
      norm_num
      all_goals decide
    have h2 : billForCalc c10ExampleState = 52 / 5 := by
      simp only [c10ExampleState, initState, billForCalc, billRaw, coerceNumber]
      norm_num
    rw [h1, h2, roundToWholeCurrency]
    norm_num [round_eq])

/-- The counterexample state for C1: bill 10.4, custom tip 0, RoundTotal.
The rounded base total (10) is below the bill, so the implied tip is floored
at 0 and the displayed total is the bill (10.4), not the rounded total. -/
def c1CounterState : AppState :=
  { initState with
      billInput := .numStr (52 / 5)
      customTipInput := .numStr 0
      roundingMode := .total }

/-- C1 as stated is false: in RoundTotal mode with bill 10.4 ≥ 0 and tip
percent 0 ≥ 0, the derived total is 10.4 while the claim says it equals the
rounded base total, 10. -/
theorem C1_roundTotal_counterexample :
    0 ≤ billRaw c1CounterState ∧ 0 ≤ activeTipPercent c1CounterState ∧
    c1CounterState.roundingMode = RoundingMode.total ∧
    roundToWholeCurrency (billRaw c1CounterState +
      billRaw c1CounterState * (activeTipPercent c1CounterState / 100)) = 10 ∧
    totalAmount c1CounterState = 52 / 5 ∧
    totalAmount c1CounterState ≠
      roundToWholeCurrency (billRaw c1CounterState +
        billRaw c1CounterState * (activeTipPercent c1CounterState / 100)) := by
  have hb : billRaw c1CounterState = 52 / 5 := by
    simp [c1CounterState, initState, billRaw, coerceNumber]
  have hp : activeTipPercent c1CounterState = 0 := by
    simp [c1CounterState, initState, activeTipPercent, isCustomActive, customTipRaw, coerceNumber]
  have hbf : billForCalc c1CounterState = 52 / 5 := by
    rw [billForCalc, hb]; norm_num
  have hbase : baseTotalAmount c1CounterState = 52 / 5 := by
    rw [baseTotalAmount, baseTipAmount, hbf, tipPercentForCalc, hp]; norm_num
  have hround : roundToWholeCurrency ((52 : ℚ) / 5) = 10 := by
    rw [roundToWholeCurrency]; norm_num [round_eq]
  have htot : totalAmount c1CounterState = 52 / 5 := by
    have hm : c1CounterState.roundingMode = RoundingMode.total := rfl
    simp only [totalAmount, tipAndTotal, hm, hbase, hround, hbf]
    norm_num
  refine ⟨by rw [hb]; norm_num, by rw [hp], rfl, ?_, htot, ?_⟩
  · rw [hb, hp]; norm_num; exact hround
  · rw [htot, hb, hp]; norm_num
    rw [hround]; norm_num

/-- C1 amended: for every bill ≥ 0 and tip percent ≥ 0, in RoundTotal mode
the derived tip is `max(0, round(baseTotal) - bill)` and the derived total is
`bill + tip`; the total equals the rounded base total exactly when the
rounded base total is at least the bill (otherwise it equals the bill). -/
theorem C1_roundTotal_amended (s : AppState) (hb : 0 ≤ billRaw s)
    (hp : 0 ≤ activeTipPercent s) (hm : s.roundingMode = RoundingMode.total) :
    tipAmount s =
      max 0 (roundToWholeCurrency (billRaw s + billRaw s * (activeTipPercent s / 100)) -
        billRaw s) ∧
    totalAmount s = billRaw s + tipAmount s ∧
    (billRaw s ≤ roundToWholeCurrency (billRaw s + billRaw s * (activeTipPercent s / 100)) →
      totalAmount s =
        roundToWholeCurrency (billRaw s + billRaw s * (activeTipPercent s / 100))) := by
  have hbf := billForCalc_of_nonneg hb
  have hpf := tipPercentForCalc_of_nonneg hp
  have hbase : baseTotalAmount s = billRaw s + billRaw s * (activeTipPercent s / 100) := by
    rw [baseTotalAmount, baseTipAmount, hbf, hpf]
  refine ⟨?_, ?_, ?_⟩
  · simp [tipAmount, tipAndTotal, hm, hbase, hbf]
  · simp [tipAmount, totalAmount, tipAndTotal, hm, hbf]
  · intro hle
    simp only [totalAmount, tipAndTotal, hm]
    rw [hbf, hbase, max_eq_right (by linarith)]
    ring

/-- The spec's example state for C1: bill 10, custom tip 1, RoundTotal
(total $10.00, tip $0.00 by the floor). -/
def c1ExampleState : AppState :=
  { initState with
      billInput := .numStr 10
      customTipInput := .numStr 1
      roundingMode := .total }

/-- Witness for the amended C1 at bill 10, custom tip 1%, RoundTotal. -/
theorem C1_roundTotal_amended_witness :
    tipAmount c1ExampleState =
      max 0 (roundToWholeCurrency (billRaw c1ExampleState +
        billRaw c1ExampleState * (activeTipPercent c1ExampleState / 100)) -
        billRaw c1ExampleState) ∧
    totalAmount c1ExampleState = billRaw c1ExampleState + tipAmount c1ExampleState ∧
    (billRaw c1ExampleState ≤ roundToWholeCurrency (billRaw c1ExampleState +
        billRaw c1ExampleState * (activeTipPercent c1ExampleState / 100)) →
      totalAmount c1ExampleState =
        roundToWholeCurrency (billRaw c1ExampleState +
          billRaw c1ExampleState * (activeTipPercent c1ExampleState / 100))) :=
  C1_roundTotal_amended c1ExampleState
    (by norm_num [c1ExampleState, initState, billRaw, coerceNumber])
    (by
      have h : activeTipPercent c1ExampleState = 1 := by
        simp [c1ExampleState, initState, activeTipPercent, isCustomActive, customTipRaw,
          coerceNumber]
      rw [h]; norm_num)
    rfl

/-- Every value stored by `onPeopleChange` is (the text of) an integer ≥ 1. -/
lemma onPeopleChange_stores_int (v : JSValue) (s : AppState) :
    ∃ k : ℤ, 1 ≤ k ∧ (onPeopleChange v s).peopleInput = JSValue.numStr (k : ℚ) := by
  cases hv : jsNumber v with
  | none => exact ⟨1, le_refl 1, by simp [onPeopleChange, hv]⟩
  | some n =>
      by_cases hn : n ≤ 0
      · exact ⟨1, le_refl 1, by simp [onPeopleChange, hv, hn]⟩
      · refine ⟨max 1 ⌊n⌋, le_max_left 1 _, ?_⟩
        simp only [onPeopleChange, hv]
        rw [if_neg hn]

/-- The state holding the counterexample input for C4: the people field
showing the text `2.5`. -/
def c4CounterState : AppState := { initState with peopleInput := .numStr (5 / 2) }

/-- C4 as stated is false: the blur handler does not re-validate the same
way as the edit handler.  On the input text `2.5` the edit handler stores
`2` (floor, clamped), while the blur handler leaves `2.5` in place. -/
theorem C4_peopleBlur_counterexample :
    (onPeopleChange (JSValue.numStr (5 / 2)) c4CounterState).peopleInput = JSValue.numStr 2 ∧
    (onPeopleBlur (JSValue.numStr (5 / 2)) c4CounterState).peopleInput = JSValue.numStr (5 / 2) ∧
    (onPeopleChange (JSValue.numStr (5 / 2)) c4CounterState).peopleInput ≠
      (onPeopleBlur (JSValue.numStr (5 / 2)) c4CounterState).peopleInput := by
  have h1 : (onPeopleChange (JSValue.numStr (5 / 2)) c4CounterState).peopleInput =
      JSValue.numStr 2 := by
    simp only [onPeopleChange, jsNumber]
    rw [if_neg (by norm_num)]
    norm_num
  have h2 : (onPeopleBlur (JSValue.numStr (5 / 2)) c4CounterState).peopleInput =
      JSValue.numStr (5 / 2) := by
    simp only [onPeopleBlur, jsNumber]
    rw [if_neg (by norm_num)]
    rfl
  refine ⟨h1, h2, ?_⟩
  rw [h1, h2]
  simp only [ne_eq, JSValue.numStr.injEq]
  norm_num

/-- C4 amended: the edit handler stores an integer ≥ 1 as text — `"1"` when
the parsed value is not finite or ≤ 0, else the floor clamped to ≥ 1; the
blur handler stores `"1"` exactly when the parsed blur-time value is not
finite or < 1, and otherwise leaves the state unchanged (it does not floor);
since every value the edit handler stores parses to an integer ≥ 1, applying
blur to the value stored by an edit never changes the state. -/
theorem C4_peopleHandlers :
    (∀ v s, ∃ k : ℤ, 1 ≤ k ∧ (onPeopleChange v s).peopleInput = JSValue.numStr (k : ℚ)) ∧
    (∀ v s, jsNumber v = Option.none → (onPeopleChange v s).peopleInput = JSValue.numStr 1) ∧
    (∀ v s (n : ℚ), jsNumber v = some n → n ≤ 0 →
      (onPeopleChange v s).peopleInput = JSValue.numStr 1) ∧
    (∀ v s (n : ℚ), jsNumber v = some n → 0 < n →
      (onPeopleChange v s).peopleInput = JSValue.numStr ((max 1 ⌊n⌋ : ℤ) : ℚ)) ∧
    (∀ v s, jsNumber v = Option.none → (onPeopleBlur v s).peopleInput = JSValue.numStr 1) ∧
    (∀ v s (n : ℚ), jsNumber v = some n → n < 1 →
      (onPeopleBlur v s).peopleInput = JSValue.numStr 1) ∧
    (∀ v s (n : ℚ), jsNumber v = some n → 1 ≤ n → onPeopleBlur v s = s) ∧
    (∀ v s, onPeopleBlur ((onPeopleChange v s).peopleInput) (onPeopleChange v s) =
      onPeopleChange v s) := by
  refine ⟨onPeopleChange_stores_int, ?_, ?_, ?_, ?_, ?_, ?_, ?_⟩
  · intro v s hv; simp [onPeopleChange, hv]
  · intro v s n hv hn; simp [onPeopleChange, hv, hn]
  · intro v s n hv hn
    simp only [onPeopleChange, hv]
    rw [if_neg (not_le.mpr hn)]
  · intro v s hv; simp [onPeopleBlur, hv]
  · intro v s n hv hn; simp [onPeopleBlur, hv, hn]
  · intro v s n hv hn
    simp only [onPeopleBlur, hv]
    rw [if_neg (not_lt.mpr hn)]
  · intro v s
    obtain ⟨k, hk, hstore⟩ := onPeopleChange_stores_int v s
    rw [hstore]
    simp only [onPeopleBlur, jsNumber]
    rw [if_neg (not_lt.mpr (by exact_mod_cast hk))]

/-- Witness for the amended C4 at the input text `2.5` from the initial
state: the edit stores `2`, and blurring the edited state leaves it as is. -/
theorem C4_peopleHandlers_witness :
    (onPeopleChange (JSValue.numStr (5 / 2)) initState).peopleInput =
      JSValue.numStr ((max 1 ⌊(5 / 2 : ℚ)⌋ : ℤ) : ℚ) ∧
    onPeopleBlur ((onPeopleChange (JSValue.numStr (5 / 2)) initState).peopleInput)
      (onPeopleChange (JSValue.numStr (5 / 2)) initState) =
      onPeopleChange (JSValue.numStr (5 / 2)) initState :=
  ⟨C4_peopleHandlers.2.2.2.1 (JSValue.numStr (5 / 2)) initState (5 / 2) rfl (by norm_num),
   C4_peopleHandlers.2.2.2.2.2.2.2 (JSValue.numStr (5 / 2)) initState⟩

/-- One step changes `lastPresetTipRef` only on a preset selection. -/
lemma step_lastPresetTip (e : Event) (s : AppState) :
    (step e s).lastPresetTip =
      (match e with | .selectPreset pct => pct | _ => s.lastPresetTip) := by
  cases e with
  | billChange v => rfl
  | selectPreset pct => rfl
  | customTipChange v =>
      by_cases hv : v = JSValue.empty <;> simp [step, onCustomTipChange, hv]
  | peopleChange v =>
      cases hv : jsNumber v with
      | none => simp [step, onPeopleChange, hv]
      | some n => by_cases hn : n ≤ 0 <;> simp [step, onPeopleChange, hv, hn]
  | peopleBlur v =>
      cases hv : jsNumber v with
      | none => simp [step, onPeopleBlur, hv]
      | some n => by_cases hn : n < 1 <;> simp [step, onPeopleBlur, hv, hn]
  | roundingChange m => rfl

/-- Along any trace, `lastPresetTipRef` is the fold of preset selections. -/
lemma run_lastPresetTip (tr : List Event) (s : AppState) :
    (run s tr).lastPresetTip =
      tr.foldl (fun acc e => match e with | .selectPreset pct => pct | _ => acc)
        s.lastPresetTip := by
  induction tr generalizing s with
  | nil => rfl
  | cons e tr ih =>
      show (run (step e s) tr).lastPresetTip = _
      rw [ih (step e s), List.foldl_cons, step_lastPresetTip]

/-- C5: custom is active exactly when the custom text is non-empty, and a
pressed preset excludes an active custom source; selecting a preset clears
the custom text, activates that preset and records it in the last-preset
memory; clearing the custom text deactivates custom and restores the
remembered preset as the active percent; no event other than a preset
selection changes the last-preset memory, which along any trace from the
initial state equals the most recently selected preset (15 initially). -/
theorem C5_tipSourceInvariant :
    (∀ s, isCustomActive s = true ↔ s.customTipInput ≠ JSValue.empty) ∧
    (∀ s pct, ¬(presetPressed s pct = true ∧ isCustomActive s = true)) ∧
    (∀ s pct, (onSelectPreset pct s).customTipInput = JSValue.empty ∧
      (onSelectPreset pct s).selectedTip = pct ∧
      (onSelectPreset pct s).lastPresetTip = pct ∧
      isCustomActive (onSelectPreset pct s) = false) ∧
    (∀ s, (onCustomTipChange JSValue.empty s).selectedTip = s.lastPresetTip ∧
      isCustomActive (onCustomTipChange JSValue.empty s) = false ∧
      activeTipPercent (onCustomTipChange JSValue.empty s) = s.lastPresetTip) ∧
    (∀ s e, (∀ pct, e ≠ Event.selectPreset pct) →
      (step e s).lastPresetTip = s.lastPresetTip) ∧
    (∀ tr, (run initState tr).lastPresetTip = lastPresetOf tr) := by
  refine ⟨?_, ?_, ?_, ?_, ?_, ?_⟩
  · intro s; simp [isCustomActive]
  · intro s pct h
    obtain ⟨hp, hc⟩ := h
    simp [presetPressed, hc] at hp
  · intro s pct
    refine ⟨rfl, rfl, rfl, ?_⟩
    simp [isCustomActive, onSelectPreset]
  · intro s
    refine ⟨by simp [onCustomTipChange], ?_, ?_⟩
    · simp [isCustomActive, onCustomTipChange]
    · simp [activeTipPercent, isCustomActive, onCustomTipChange]
  · intro s e he
    rw [step_lastPresetTip]
    cases e with
    | selectPreset pct => exact absurd rfl (he pct)
    | billChange v => rfl
    | customTipChange v => rfl
    | peopleChange v => rfl
    | peopleBlur v => rfl
    | roundingChange m => rfl
  · intro tr
    rw [lastPresetOf, run_lastPresetTip tr initState]
    rfl

/-- Witness for C5: a trace that selects preset 20, types a custom tip, and
clears it again, restoring 20 as the active percent; and a bill edit leaves
the last-preset memory untouched. -/
theorem C5_tipSourceInvariant_witness :
    activeTipPercent (onCustomTipChange JSValue.empty
      (run initState [Event.selectPreset 20, Event.customTipChange (JSValue.numStr 7)])) =
      (run initState [Event.selectPreset 20, Event.customTipChange (JSValue.numStr 7)]).lastPresetTip ∧
    (step (Event.billChange (JSValue.numStr 7)) initState).lastPresetTip =
      initState.lastPresetTip ∧
    (run initState [Event.selectPreset 20, Event.customTipChange (JSValue.numStr 7)]).lastPresetTip =
      lastPresetOf [Event.selectPreset 20, Event.customTipChange (JSValue.numStr 7)] :=
  ⟨(C5_tipSourceInvariant.2.2.2.1
      (run initState [Event.selectPreset 20, Event.customTipChange (JSValue.numStr 7)])).2.2,
   C5_tipSourceInvariant.2.2.2.2.1 initState (Event.billChange (JSValue.numStr 7))
     (fun _ h => Event.noConfusion h),
   C5_tipSourceInvariant.2.2.2.2.2
     [Event.selectPreset 20, Event.customTipChange (JSValue.numStr 7)]⟩

/-- C6: the per-person block is rendered exactly when the clamped people
count exceeds 1, and then shows the overall (already mode-rounded) tip and
total each divided by the clamped count — in RoundTip and RoundTotal modes
the dividend is the rounded overall value, never a recomputed base value. -/
theorem C6_perPersonValues :
    (∀ s, (perPersonResults s).isSome = true ↔ 1 < peopleClamped s) ∧
    (∀ s, 1 < peopleClamped s →
      perPersonResults s =
        some (tipAmount s / (peopleClamped s : ℚ), totalAmount s / (peopleClamped s : ℚ))) ∧
    (∀ s, s.roundingMode = RoundingMode.tip →
      perPersonTip s = roundToWholeCurrency (baseTipAmount s) / (peopleClamped s : ℚ)) ∧
    (∀ s, s.roundingMode = RoundingMode.total →
      perPersonTip s =
        max 0 (roundToWholeCurrency (baseTotalAmount s) - billForCalc s) /
          (peopleClamped s : ℚ)) := by
  refine ⟨?_, ?_, ?_, ?_⟩
  · intro s
    by_cases h : 1 < peopleClamped s <;> simp [perPersonResults, h]
  · intro s h
    simp [perPersonResults, h, perPersonTip, perPersonTotal]
  · intro s hm
    simp [perPersonTip, tipAmount, tipAndTotal, hm]
  · intro s hm
    simp [perPersonTip, tipAmount, tipAndTotal, hm]

/-- The spec's example state for C6: bill 120, people 3, preset 15. -/
def c6ExampleState : AppState :=
  { initState with billInput := .numStr 120, peopleInput := .numStr 3 }

/-- Witness for C6 at bill 120, 3 people, preset tip 15. -/
theorem C6_perPersonValues_witness :
    perPersonResults c6ExampleState =
      some (tipAmount c6ExampleState / (peopleClamped c6ExampleState : ℚ),
        totalAmount c6ExampleState / (peopleClamped c6ExampleState : ℚ)) :=
  C6_perPersonValues.2.1 c6ExampleState
    (by norm_num [c6ExampleState, initState, peopleClamped, peopleRaw, coerceNumber])

/-- Helper: `formatCurrency 0 = "$0.00"`. -/
lemma formatCurrency_zero : formatCurrency 0 = "$0.00" := by
  have h : round ((0 : ℚ) * 100) = 0 := by norm_num
  simp only [formatCurrency, h]
  rfl

/-- The spec's error example state for C9: bill text `-10`, rest initial. -/
def c9NegBillState : AppState := { initState with billInput := .numStr (-10) }

/-- A state for C9 in which all three error conditions hold at once: bill
`-10`, custom tip `-5`, people `0`. -/
def c9AllErrState : AppState :=
  { initState with
      billInput := .numStr (-10)
      customTipInput := .numStr (-5)
      peopleInput := .numStr 0 }

/-- C9: each validation flag is a function of its own input alone (so the
three error conditions are flagged independently), and computation is never
blocked: with a negative bill (-10) the bill flag is set while the other
flags are not, and the derived tip and total are 0, displayed as `$0.00`;
even with all three errors at once the derivation still yields values. -/
theorem C9_validationFlags :
    (∀ s t, s.billInput = t.billInput → billHasError s = billHasError t) ∧
    (∀ s t, s.customTipInput = t.customTipInput → s.selectedTip = t.selectedTip →
      tipHasError s = tipHasError t) ∧
    (∀ s t, s.peopleInput = t.peopleInput → peopleHasError s = peopleHasError t) ∧
    (billHasError c9NegBillState = true ∧ tipHasError c9NegBillState = false ∧
      peopleHasError c9NegBillState = false ∧ tipAmount c9NegBillState = 0 ∧
      totalAmount c9NegBillState = 0 ∧
      formatCurrency (tipAmount c9NegBillState) = "$0.00" ∧
      formatCurrency (totalAmount c9NegBillState) = "$0.00") ∧
    (billHasError c9AllErrState = true ∧ tipHasError c9AllErrState = true ∧
      peopleHasError c9AllErrState = true ∧ tipAmount c9AllErrState = 0 ∧
      totalAmount c9AllErrState = 0) := by
  have hneg_tip : tipAmount c9NegBillState = 0 := by
    have hm : c9NegBillState.roundingMode = RoundingMode.none := rfl
    simp [tipAmount, tipAndTotal, hm, baseTipAmount, billForCalc, billRaw, coerceNumber,
      c9NegBillState, initState]
  have hneg_tot : totalAmount c9NegBillState = 0 := by
    have hm : c9NegBillState.roundingMode = RoundingMode.none := rfl
    simp [totalAmount, tipAndTotal, hm, baseTotalAmount, baseTipAmount, billForCalc, billRaw,
      coerceNumber, c9NegBillState, initState]
  have hall_tip : tipAmount c9AllErrState = 0 := by
    have hm : c9AllErrState.roundingMode = RoundingMode.none := rfl
    simp [tipAmount, tipAndTotal, hm, baseTipAmount, billForCalc, billRaw, coerceNumber,
      c9AllErrState, initState]
  have hall_tot : totalAmount c9AllErrState = 0 := by
    have hm : c9AllErrState.roundingMode = RoundingMode.none := rfl
    simp [totalAmount, tipAndTotal, hm, baseTotalAmount, baseTipAmount, billForCalc, billRaw,
      coerceNumber, c9AllErrState, initState]
  refine ⟨?_, ?_, ?_, ⟨?_, ?_, ?_, hneg_tip, hneg_tot, ?_, ?_⟩, ⟨?_, ?_, ?_, hall_tip, hall_tot⟩⟩
  · intro s t h; simp [billHasError, billRaw, h]
  · intro s t h1 h2; simp [tipHasError, activeTipPercent, isCustomActive, customTipRaw, h1, h2]
  · intro s t h; simp [peopleHasError, peopleRaw, h]
  · simp [billHasError, billRaw, coerceNumber, c9NegBillState, initState]
  · simp [tipHasError, activeTipPercent, isCustomActive, customTipRaw, coerceNumber,
      c9NegBillState, initState]
  · simp [peopleHasError, peopleRaw, coerceNumber, c9NegBillState, initState]
  · rw [hneg_tip]; exact formatCurrency_zero
  · rw [hneg_tot]; exact formatCurrency_zero
  · simp [billHasError, billRaw, coerceNumber, c9AllErrState, initState]
  · simp [tipHasError, activeTipPercent, isCustomActive, customTipRaw, coerceNumber,
      c9AllErrState, initState]
  · simp [peopleHasError, peopleRaw, coerceNumber, c9AllErrState, initState]

/-- Witness for C9: the bill flag depends only on the bill text — equal in
the all-errors state and the negative-bill state, whose bill texts agree. -/
theorem C9_validationFlags_witness :
    billHasError c9AllErrState = billHasError c9NegBillState :=
  C9_validationFlags.1 c9AllErrState c9NegBillState rfl
